import Mathlib

/-!
Verification of `src/session.rs` of the `slot` repository: the session-creation
handshake, the query/policy encoder, and the on-disk session persistence.

The Rust code is shallowly embedded: pure functions become Lean functions, the
filesystem becomes an explicit association of paths to entries, the one-shot
mpsc channel between the axum callback handler and the waiting `create` call
becomes an explicit state machine over the list of HTTP requests the callback
endpoint receives.  External collaborators absent from the sources
(`crate::credential::Credentials`, `crate::server::LocalServer`, the `dirs`,
`url`, `urlencoding` and `serde_json` crates) are modelled from their documented
behaviour; each such definition says so in its doc comment.
-/

namespace Slot

/-! ### Data model (`Policy`, `Session`, `SessionCredentials` from session.rs) -/

/-- `starknet::core::types::FieldElement` is modelled by its numeric value.
(The claims under verification never exercise field arithmetic, only the
hexadecimal/decimal rendering of the value.) -/
abbrev FieldElement := Nat

/-- `struct Policy { target: FieldElement, method: String }` -/
structure Policy where
  target : FieldElement
  method : String
deriving DecidableEq

/-- `struct SessionCredentials { private_key: String, authorization: Vec<String> }`
(serde `rename_all = "camelCase"`). -/
structure SessionCredentials where
  private_key : String
  authorization : List String
deriving DecidableEq

/-- `struct Session { expires_at: String, policies: Vec<Policy>, credentials: SessionCredentials }`
(serde `rename_all = "camelCase"`). -/
structure Session where
  expires_at : String
  policies : List Policy
  credentials : SessionCredentials
deriving DecidableEq

/-! ### Hexadecimal rendering (Rust `format!("{n:#x}")`) -/

/-- One lowercase hexadecimal digit. -/
def hexDigitLower (n : Nat) : Char :=
  if n = 0 then '0' else if n = 1 then '1' else if n = 2 then '2'
  else if n = 3 then '3' else if n = 4 then '4' else if n = 5 then '5'
  else if n = 6 then '6' else if n = 7 then '7' else if n = 8 then '8'
  else if n = 9 then '9' else if n = 10 then 'a' else if n = 11 then 'b'
  else if n = 12 then 'c' else if n = 13 then 'd' else if n = 14 then 'e'
  else 'f'

/-- One uppercase hexadecimal digit (percent-escapes use uppercase). -/
def hexDigitUpper (n : Nat) : Char :=
  if n = 0 then '0' else if n = 1 then '1' else if n = 2 then '2'
  else if n = 3 then '3' else if n = 4 then '4' else if n = 5 then '5'
  else if n = 6 then '6' else if n = 7 then '7' else if n = 8 then '8'
  else if n = 9 then '9' else if n = 10 then 'A' else if n = 11 then 'B'
  else if n = 12 then 'C' else if n = 13 then 'D' else if n = 14 then 'E'
  else 'F'

/-- Fuel-bounded digit extraction for `natHexChars` (the fuel `n + 1` always
suffices, since `n / 16 < n` for `n ≥ 16`). -/
def natHexCharsAux : Nat → Nat → List Char
  | 0, _ => []
  | fuel + 1, n =>
    if n < 16 then [hexDigitLower n]
    else natHexCharsAux fuel (n / 16) ++ [hexDigitLower (n % 16)]

/-- Lowercase hexadecimal digits of `n`, most significant first (no leading
zeros, `0` renders as `"0"`), as produced by Rust's `LowerHex`. -/
def natHexChars (n : Nat) : List Char := natHexCharsAux (n + 1) n

/-- Rust `format!("{n:#x}")`: `0x` prefix followed by lowercase hex digits. -/
def formatHexAlternate (n : Nat) : String := "0x" ++ String.mk (natHexChars n)

/-! ### UTF-8 and percent-coding

Modelled from the `urlencoding` crate (used for the policy JSON fragments) and
the `form_urlencoded` serializer that `url::Url::query_pairs_mut().append_pair`
uses for `callback_uri`.  Both operate on the UTF-8 bytes of the input. -/

/-- The UTF-8 bytes of one scalar value. -/
def utf8Bytes (c : Char) : List Nat :=
  let n := c.toNat
  if n < 0x80 then [n]
  else if n < 0x800 then [0xC0 + n / 64, 0x80 + n % 64]
  else if n < 0x10000 then [0xE0 + n / 4096, 0x80 + (n / 64) % 64, 0x80 + n % 64]
  else [0xF0 + n / 262144, 0x80 + (n / 4096) % 64, 0x80 + (n / 64) % 64, 0x80 + n % 64]

/-- `%XX` with uppercase hex digits, as emitted by both percent-coders. -/
def percentEncodeByte (b : Nat) : List Char :=
  ['%', hexDigitUpper (b / 16), hexDigitUpper (b % 16)]

/-- The characters the `urlencoding` crate leaves unescaped:
ASCII alphanumerics and `-`, `_`, `.`, `~`. -/
def urlUnreserved (c : Char) : Bool :=
  let n := c.toNat
  (48 ≤ n && n ≤ 57) || (65 ≤ n && n ≤ 90) || (97 ≤ n && n ≤ 122)
    || n == 45 || n == 95 || n == 46 || n == 126

namespace urlencoding

/-- Modelled from the `urlencoding` crate: `urlencoding::encode`, per character
(per byte for non-ASCII). -/
def encodeChar (c : Char) : List Char :=
  if urlUnreserved c then [c]
  else (utf8Bytes c).foldr (fun b acc => percentEncodeByte b ++ acc) []

/-- `urlencoding::encode` on a whole string. -/
def encode (s : String) : String :=
  String.mk (s.data.foldr (fun c acc => encodeChar c ++ acc) [])

end urlencoding

/-- The characters the `application/x-www-form-urlencoded` byte serializer
keeps verbatim: ASCII alphanumerics and `*`, `-`, `.`, `_`. -/
def formUrlKeep (c : Char) : Bool :=
  let n := c.toNat
  (48 ≤ n && n ≤ 57) || (65 ≤ n && n ≤ 90) || (97 ≤ n && n ≤ 122)
    || n == 42 || n == 45 || n == 46 || n == 95

namespace form_urlencoded

/-- Modelled from the `form_urlencoded` serializer used by
`url::Url::query_pairs_mut().append_pair`: space becomes `+`, kept characters
stay, every other UTF-8 byte becomes `%XX`. -/
def encodeChar (c : Char) : List Char :=
  if c = ' ' then ['+']
  else if formUrlKeep c then [c]
  else (utf8Bytes c).foldr (fun b acc => percentEncodeByte b ++ acc) []

/-- The serializer on a whole string. -/
def encode (s : String) : String :=
  String.mk (s.data.foldr (fun c acc => encodeChar c ++ acc) [])

end form_urlencoded

/-! ### JSON values and the serde_json printers

`serde_json::to_string` / `to_string_pretty`, restricted to the value grammar
the `Session` schema generates (strings, arrays, objects — all leaves of the
schema are serialized as JSON strings). -/

/-- JSON values of the session schema. -/
inductive Json
  | str (s : String)
  | arr (xs : List Json)
  | obj (fields : List (String × Json))

/-- serde_json's string escaping: `"`, `\`, the short control escapes, and
`\u00XX` (lowercase hex) for the remaining control characters. -/
def jsonEscapeChar (c : Char) : List Char :=
  if c = '"' then ['\\', '"']
  else if c = '\\' then ['\\', '\\']
  else if c.toNat = 8 then ['\\', 'b']
  else if c.toNat = 9 then ['\\', 't']
  else if c.toNat = 10 then ['\\', 'n']
  else if c.toNat = 12 then ['\\', 'f']
  else if c.toNat = 13 then ['\\', 'r']
  else if c.toNat < 0x20 then
    ['\\', 'u', '0', '0', hexDigitLower (c.toNat / 16), hexDigitLower (c.toNat % 16)]
  else [c]

/-- A JSON string literal: quoted and escaped. -/
def jsonQuote (s : String) : String :=
  String.mk ('"' :: s.data.foldr (fun c acc => jsonEscapeChar c ++ acc) ['"'])

mutual

/-- `serde_json::to_string`: the compact rendering. -/
def Json.compact : Json → String
  | .str s => jsonQuote s
  | .arr xs => "[" ++ Json.compactArr xs ++ "]"
  | .obj fs => "\x7b" ++ Json.compactObj fs ++ "\x7d"

/-- Comma-joined compact array elements. -/
def Json.compactArr : List Json → String
  | [] => ""
  | [x] => Json.compact x
  | x :: y :: xs => Json.compact x ++ "," ++ Json.compactArr (y :: xs)

/-- Comma-joined compact object members (`"key":value`). -/
def Json.compactObj : List (String × Json) → String
  | [] => ""
  | [(k, v)] => jsonQuote k ++ ":" ++ Json.compact v
  | (k, v) :: f :: fs => jsonQuote k ++ ":" ++ Json.compact v ++ "," ++ Json.compactObj (f :: fs)

end

/-- `n` spaces. -/
def indentStr (n : Nat) : String := String.mk (List.replicate n ' ')

mutual

/-- `serde_json::to_string_pretty`: two-space indentation, `": "` after keys,
empty arrays and objects rendered inline. -/
def Json.pretty (ind : Nat) : Json → String
  | .str s => jsonQuote s
  | .arr [] => "[]"
  | .arr (x :: xs) => "[\n" ++ Json.prettyArr (ind + 2) (x :: xs) ++ "\n" ++ indentStr ind ++ "]"
  | .obj [] => "\x7b\x7d"
  | .obj (f :: fs) => "\x7b\n" ++ Json.prettyObj (ind + 2) (f :: fs) ++ "\n" ++ indentStr ind ++ "\x7d"

/-- Pretty array elements, one per line. -/
def Json.prettyArr (ind : Nat) : List Json → String
  | [] => ""
  | [x] => indentStr ind ++ Json.pretty ind x
  | x :: y :: ys => indentStr ind ++ Json.pretty ind x ++ ",\n" ++ Json.prettyArr ind (y :: ys)

/-- Pretty object members, one per line. -/
def Json.prettyObj (ind : Nat) : List (String × Json) → String
  | [] => ""
  | [(k, v)] => indentStr ind ++ jsonQuote k ++ ": " ++ Json.pretty ind v
  | (k, v) :: g :: gs =>
    indentStr ind ++ jsonQuote k ++ ": " ++ Json.pretty ind v ++ ",\n" ++
      Json.prettyObj ind (g :: gs)

end

/-! ### serde serialization of the session data model

`FieldElement`'s serde implementation (starknet-ff) writes the decimal string
of the value; the structs use the derived serializers with camelCase field
names, fields in declaration order. -/

/-- The serde JSON value of a `Policy`. -/
def Policy.toJson (p : Policy) : Json :=
  .obj [("target", .str (Nat.repr p.target)), ("method", .str p.method)]

/-- The serde JSON value of a `Session` (camelCase field names). -/
def Session.toJson (s : Session) : Json :=
  .obj [("expiresAt", .str s.expires_at),
        ("policies", .arr (s.policies.map Policy.toJson)),
        ("credentials",
          .obj [("privateKey", .str s.credentials.private_key),
                ("authorization", .arr (s.credentials.authorization.map Json.str))])]

/-- serde_json's opaque error type.  Serializing a `Policy` or `Session` to a
string never fails, so no embedded operation ever produces it; it is kept
inhabited so that "never fails" is a theorem rather than a typing artifact. -/
inductive SerdeError
  | err
deriving DecidableEq

namespace serde_json

/-- `serde_json::to_string(&policy)`. -/
def to_string (p : Policy) : Except SerdeError String :=
  .ok (Json.compact (Policy.toJson p))

/-- `serde_json::to_string_pretty(&session)`. -/
def to_string_pretty (s : Session) : String :=
  Json.pretty 0 (Session.toJson s)

end serde_json

/-! ### The query/policy encoder (`prepare_query_params`) -/

/-- `Vec::join(sep)`. -/
def joinStrings (sep : String) : List String → String
  | [] => ""
  | [x] => x
  | x :: y :: xs => x ++ sep ++ joinStrings sep (y :: xs)

/-- `Iterator::collect::<Result<Vec<_>, _>>()`: left-to-right, stopping at the
first error. -/
def collectExcept {E A : Type} : List (Except E A) → Except E (List A)
  | [] => .ok []
  | x :: xs =>
    match x with
    | .error e => .error e
    | .ok v =>
      match collectExcept xs with
      | .error e => .error e
      | .ok vs => .ok (v :: vs)

/-- `prepare_query_params` from session.rs: serialize each policy to JSON,
percent-encode it, join with `,`, and splice into the literal query string. -/
def prepare_query_params (username rpc_url : String) (policies : List Policy) :
    Except SerdeError String :=
  match collectExcept (policies.map (fun p =>
      match serde_json.to_string p with
      | .error e => .error e
      | .ok s => .ok (urlencoding.encode s))) with
  | .error e => .error e
  | .ok encoded =>
    .ok ("username=" ++ username ++ "&rpc_url=" ++ rpc_url ++ "&policies=[" ++
      joinStrings "," encoded ++ "]")

/-- The percent-encoded compact JSON of one policy — the `<p_i>` fragment of
the spec's query-string format. -/
def encodedPolicy (p : Policy) : String :=
  urlencoding.encode (Json.compact (Policy.toJson p))

/-- The query string `prepare_query_params` produces — the spec §4.4 format
`username=<u>&rpc_url=<r>&policies=[<p1>,<p2>,...]`. -/
def paramsOf (u r : String) (ps : List Policy) : String :=
  "username=" ++ u ++ "&rpc_url=" ++ r ++ "&policies=[" ++
    joinStrings "," (ps.map encodedPolicy) ++ "]"

/-! ### JSON parsing (`serde_json::from_str::<Session>`)

A total (fuel-bounded) recursive-descent parser for the JSON value grammar
above, followed by the derived deserializers.  serde ignores unknown object
fields and does not require any field order. -/

/-- JSON insignificant whitespace. -/
def isJsonWs (c : Char) : Bool := c = ' ' || c = '\n' || c = '\t' || c = '\r'

/-- Drop leading whitespace. -/
def skipWs : List Char → List Char
  | [] => []
  | c :: cs => if isJsonWs c then skipWs cs else c :: cs

/-- The value of a hexadecimal digit character. -/
def hexVal (c : Char) : Option Nat :=
  if 48 ≤ c.toNat ∧ c.toNat ≤ 57 then some (c.toNat - 48)
  else if 65 ≤ c.toNat ∧ c.toNat ≤ 70 then some (c.toNat - 55)
  else if 97 ≤ c.toNat ∧ c.toNat ≤ 102 then some (c.toNat - 87)
  else none

/-- The character denoted by a short JSON escape (`\n`, `\t`, ...). -/
def jsonUnescape (e : Char) : Option Char :=
  if e = '"' then some '"'
  else if e = '\\' then some '\\'
  else if e = '/' then some '/'
  else if e = 'b' then some (Char.ofNat 8)
  else if e = 'f' then some (Char.ofNat 12)
  else if e = 'n' then some (Char.ofNat 10)
  else if e = 'r' then some (Char.ofNat 13)
  else if e = 't' then some (Char.ofNat 9)
  else none

/-- Parse the body of a JSON string literal (the opening quote already
consumed); returns the decoded characters and the input after the closing
quote.  Lone surrogates are rejected, as serde_json rejects them. -/
def parseJsonStringBody : Nat → List Char → Option (List Char × List Char)
  | 0, _ => none
  | _, [] => none
  | fuel + 1, c :: cs =>
    if c = '"' then some ([], cs)
    else if c = '\\' then
      match cs with
      | [] => none
      | e :: cs2 =>
        if e = 'u' then
          match cs2 with
          | a :: b :: c3 :: d :: r =>
            match hexVal a, hexVal b, hexVal c3, hexVal d with
            | some x1, some x2, some x3, some x4 =>
              let n := ((x1 * 16 + x2) * 16 + x3) * 16 + x4
              if 0xD800 ≤ n ∧ n < 0xE000 then none
              else
                match parseJsonStringBody fuel r with
                | some (s, rest) => some (Char.ofNat n :: s, rest)
                | none => none
            | _, _, _, _ => none
          | _ => none
        else
          match jsonUnescape e with
          | some d =>
            match parseJsonStringBody fuel cs2 with
            | some (s, rest) => some (d :: s, rest)
            | none => none
          | none => none
    else
      match parseJsonStringBody fuel cs with
      | some (s, rest) => some (c :: s, rest)
      | none => none

mutual

/-- Parse one JSON value (string, array or object — the grammar of the session
schema); returns the value and the remaining input. -/
def parseJsonValue : Nat → List Char → Option (Json × List Char)
  | 0, _ => none
  | fuel + 1, cs =>
    match skipWs cs with
    | [] => none
    | c :: rest =>
      if c = '"' then
        match parseJsonStringBody (fuel + 1) rest with
        | some (s, r) => some (.str (String.mk s), r)
        | none => none
      else if c = '[' then
        match skipWs rest with
        | ']' :: r => some (.arr [], r)
        | r2 =>
          match parseJsonItems fuel r2 with
          | some (xs, r) => some (.arr xs, r)
          | none => none
      else if c = '\x7b' then
        match skipWs rest with
        | '\x7d' :: r => some (.obj [], r)
        | r2 =>
          match parseJsonFields fuel r2 with
          | some (fs, r) => some (.obj fs, r)
          | none => none
      else none

/-- Parse the comma-separated elements of a non-empty array, through `]`. -/
def parseJsonItems : Nat → List Char → Option (List Json × List Char)
  | 0, _ => none
  | fuel + 1, cs =>
    match parseJsonValue fuel cs with
    | none => none
    | some (x, r) =>
      match skipWs r with
      | ',' :: r2 =>
        match parseJsonItems fuel r2 with
        | some (xs, r3) => some (x :: xs, r3)
        | none => none
      | ']' :: r2 => some ([x], r2)
      | _ => none

/-- Parse the members of a non-empty object, through the closing brace. -/
def parseJsonFields : Nat → List Char → Option (List (String × Json) × List Char)
  | 0, _ => none
  | fuel + 1, cs =>
    match skipWs cs with
    | '"' :: r =>
      match parseJsonStringBody (fuel + 1) r with
      | none => none
      | some (k, r2) =>
        match skipWs r2 with
        | ':' :: r3 =>
          match parseJsonValue fuel r3 with
          | none => none
          | some (v, r4) =>
            match skipWs r4 with
            | ',' :: r5 =>
              match parseJsonFields fuel r5 with
              | some (fs, r6) => some ((String.mk k, v) :: fs, r6)
              | none => none
            | '\x7d' :: r5 => some ([(String.mk k, v)], r5)
            | _ => none
        | _ => none
    | _ => none

end

/-- Parse a complete JSON document (only trailing whitespace allowed). -/
def parseJson (s : String) : Option Json :=
  match parseJsonValue (2 * s.data.length + 2) s.data with
  | some (j, rest) => if (skipWs rest).isEmpty then some j else none
  | none => none

/-- Decimal digit value. -/
def decDigit (c : Char) : Option Nat :=
  if 48 ≤ c.toNat ∧ c.toNat ≤ 57 then some (c.toNat - 48) else none

/-- Parse a non-empty decimal digit string. -/
def parseNatDec (cs : List Char) : Option Nat :=
  match cs with
  | [] => none
  | _ => cs.foldl (fun acc c => acc.bind (fun a => (decDigit c).map (fun d => a * 10 + d)))
      (some 0)

/-- Parse a non-empty hexadecimal digit string. -/
def parseNatHex (cs : List Char) : Option Nat :=
  match cs with
  | [] => none
  | _ => cs.foldl (fun acc c => acc.bind (fun a => (hexVal c).map (fun d => a * 16 + d)))
      (some 0)

/-- Modelled from starknet-ff's string deserialization of a field element
(the spec's "hex/dec field element as decoded by the Policy type"):
a `0x`-prefixed string parses as hexadecimal, anything else as decimal. -/
def FieldElement.fromString (s : String) : Option FieldElement :=
  match s.data with
  | '0' :: 'x' :: rest => parseNatHex rest
  | ds => parseNatDec ds

/-- Look a field up in a JSON object (serde ignores unknown fields and is
insensitive to member order). -/
def Json.getField (j : Json) (k : String) : Option Json :=
  match j with
  | .obj fs => (fs.find? (fun f => f.1 == k)).map (fun f => f.2)
  | _ => none

/-- A JSON string payload. -/
def Json.asString : Json → Option String
  | .str s => some s
  | _ => none

/-- A JSON array payload. -/
def Json.asArr : Json → Option (List Json)
  | .arr xs => some xs
  | _ => none

/-- The derived `Deserialize` for `Policy`. -/
def Policy.fromJson (j : Json) : Option Policy :=
  match (Json.getField j "target").bind Json.asString with
  | none => none
  | some t =>
    match FieldElement.fromString t with
    | none => none
    | some target =>
      match (Json.getField j "method").bind Json.asString with
      | none => none
      | some m => some { target := target, method := m }

/-- The derived `Deserialize` for `SessionCredentials` (camelCase fields). -/
def SessionCredentials.fromJson (j : Json) : Option SessionCredentials :=
  match (Json.getField j "privateKey").bind Json.asString with
  | none => none
  | some pk =>
    match (Json.getField j "authorization").bind Json.asArr with
    | none => none
    | some xs =>
      match xs.mapM Json.asString with
      | none => none
      | some auth => some { private_key := pk, authorization := auth }

/-- The derived `Deserialize` for `Session` (camelCase fields). -/
def Session.fromJson (j : Json) : Option Session :=
  match (Json.getField j "expiresAt").bind Json.asString with
  | none => none
  | some exp =>
    match (Json.getField j "policies").bind Json.asArr with
    | none => none
    | some pjs =>
      match pjs.mapM Policy.fromJson with
      | none => none
      | some ps =>
        match Json.getField j "credentials" with
        | none => none
        | some cj =>
          match SessionCredentials.fromJson cj with
          | none => none
          | some creds => some { expires_at := exp, policies := ps, credentials := creds }

/-- `serde_json::from_str::<Session>`. -/
def serde_json.from_str (s : String) : Option Session :=
  (parseJson s).bind Session.fromJson

/-- Decidable equality for `Except`, used to evaluate the embedded operations
at concrete inputs. -/
instance {ε α : Type} [DecidableEq ε] [DecidableEq α] : DecidableEq (Except ε α) := fun x y =>
  match x, y with
  | .error a, .error b =>
    if h : a = b then isTrue (by rw [h]) else isFalse (fun hh => by cases hh; exact h rfl)
  | .ok a, .ok b =>
    if h : a = b then isTrue (by rw [h]) else isFalse (fun hh => by cases hh; exact h rfl)
  | .error _, .ok _ => isFalse (fun hh => by cases hh)
  | .ok _, .error _ => isFalse (fun hh => by cases hh)

/-! ### Error taxonomy and the filesystem model -/

/-- The `std::io` error kinds the embedded operations can produce. -/
inductive IoError
  | notFound
  | isADirectory
  | fileExists
deriving DecidableEq

/-- The typed failures of the session core (spec §7), plus an explicit
constructor for a Rust panic (`Option::expect`), which is *not* a typed error:
the theorems distinguish returning `.error` from panicking. -/
inductive SlotError
  | identityUnavailable
  | panicked (msg : String)
  | ioError (e : IoError)
  | deserializationError
  | encodingError
  | endpointBindFailed
  | browserLaunchFailed
  | channelClosed
deriving DecidableEq

/-- A filesystem path, as its list of components. -/
abbrev Path := List String

/-- A filesystem entry: a directory or a file with string contents. -/
inductive FsEntry
  | dir
  | file (contents : String)
deriving DecidableEq

/-- The filesystem: an association of paths to entries (first match wins, so
an overwrite may simply cons). -/
structure Fs where
  entries : List (Path × FsEntry)
deriving DecidableEq

/-- Entry at a path, if any. -/
def Fs.lookup (fs : Fs) (p : Path) : Option FsEntry :=
  (fs.entries.find? (fun e => e.1 == p)).map (fun e => e.2)

/-- `Path::exists`. -/
def Fs.existsPath (fs : Fs) (p : Path) : Bool :=
  (Fs.lookup fs p).isSome

/-- The proper, nonempty prefixes of a path, shortest first. -/
def pathPrefixes (p : Path) : List Path :=
  (List.range p.length).map (fun i => p.take (i + 1))

/-- Helper for `Fs.mkdirAll`: create each listed path as a directory if absent;
fail if one exists as a file. -/
def Fs.mkdirAllGo : Fs → List Path → Except IoError Fs
  | fs, [] => .ok fs
  | fs, q :: qs =>
    match Fs.lookup fs q with
    | some .dir => Fs.mkdirAllGo fs qs
    | some (.file _) => .error .fileExists
    | none => Fs.mkdirAllGo ⟨(q, FsEntry.dir) :: fs.entries⟩ qs

/-- `fs::create_dir_all(p)`: create `p` *and every ancestor* as directories. -/
def Fs.mkdirAll (fs : Fs) (p : Path) : Except IoError Fs :=
  Fs.mkdirAllGo fs (pathPrefixes p)

/-- `fs::write(p, contents)`: fails if `p` is a directory or its parent does
not exist as a directory; otherwise (over)writes the file. -/
def Fs.writeFile (fs : Fs) (p : Path) (c : String) : Except IoError Fs :=
  match Fs.lookup fs p with
  | some .dir => .error .isADirectory
  | _ =>
    match Fs.lookup fs p.dropLast with
    | some .dir => .ok ⟨(p, FsEntry.file c) :: fs.entries⟩
    | _ => .error .notFound

/-- `fs::read_to_string(p)`. -/
def Fs.read_to_string (fs : Fs) (p : Path) : Except IoError String :=
  match Fs.lookup fs p with
  | some (.file c) => .ok c
  | some .dir => .error .isADirectory
  | none => .error .notFound

/-! ### The credential store (external collaborator) -/

/-- The account record of the credential store. -/
structure Account where
  id : String
deriving DecidableEq

/-- `crate::credential::Credentials` (only the field session.rs reads). -/
structure Credentials where
  account : Option Account
deriving DecidableEq

/-- Modelled from the spec: the Credential Store collaborator
(`crate::credential::Credentials`, not under `src/`).  Its state is the
currently authenticated account id, if any; per spec §4.1 and §7, `load()`
"fails with IdentityUnavailable if no account is currently authenticated",
and a successful load carries the account record. -/
def Credentials.load (auth : Option String) : Except SlotError Credentials :=
  match auth with
  | none => .error SlotError.identityUnavailable
  | some i => .ok { account := some { id := i } }

/-- `credentials.account.expect("id must exist").id`: a `None` account after a
successful load is a Rust *panic*, modelled as the distinguished
`SlotError.panicked` outcome. -/
def Credentials.expectAccountId (c : Credentials) : Except SlotError String :=
  match c.account with
  | some a => .ok a.id
  | none => .error (SlotError.panicked "id must exist")

/-- Modelled from the spec: the fixed product namespace directory
(`SLOT_DIR`, defined in the absent `crate::credential`). -/
def SLOT_DIR : String := "slot"

/-- `const SESSION_FILE_BASE_NAME` from session.rs. -/
def SESSION_FILE_BASE_NAME : String := "session.json"

/-- The ambient OS environment: `dirs::config_local_dir()` (modelled as always
available — session.rs panics on an unsupported OS, which no claim covers). -/
structure Env where
  config_local_dir : Path
deriving DecidableEq

/-- `get_file_path` from session.rs:
`<config_local_dir>/<SLOT_DIR>/<username>/<chain_id:#x>-session.json`. -/
def get_file_path (env : Env) (username : String) (chain_id : FieldElement) : Path :=
  let file_name := formatHexAlternate chain_id ++ "-" ++ SESSION_FILE_BASE_NAME
  env.config_local_dir ++ [SLOT_DIR, username, file_name]

/-! ### Persistence: `get` and `store` -/

/-- `get` from session.rs: load credentials, resolve the file path, read and
deserialize. -/
def get (env : Env) (auth : Option String) (fs : Fs) (chain_id : FieldElement) :
    Except SlotError Session :=
  match Credentials.load auth with
  | .error e => .error e
  | .ok credentials =>
    match Credentials.expectAccountId credentials with
    | .error e => .error e
    | .ok username =>
      match Fs.read_to_string fs (get_file_path env username chain_id) with
      | .error e => .error (SlotError.ioError e)
      | .ok contents =>
        match serde_json.from_str contents with
        | some s => .ok s
        | none => .error SlotError.deserializationError

/-- `store` from session.rs.  NOTE: the source passes `&path` — the full session
*file* path, not `parent` — to `fs::create_dir_all`, although the guard checks
whether the *parent* exists; the embedding preserves this faithfully. -/
def store (env : Env) (auth : Option String) (fs : Fs) (chain_id : FieldElement)
    (session : Session) : Except SlotError Fs :=
  match Credentials.load auth with
  | .error e => .error e
  | .ok credentials =>
    match Credentials.expectAccountId credentials with
    | .error e => .error e
    | .ok username =>
      let path := get_file_path env username chain_id
      let afterDirs : Except SlotError Fs :=
        if path ≠ [] ∧ Fs.existsPath fs path.dropLast = false then
          match Fs.mkdirAll fs path with
          | .error e => .error (SlotError.ioError e)
          | .ok fs1 => .ok fs1
        else .ok fs
      match afterDirs with
      | .error e => .error e
      | .ok fs1 =>
        let contents := serde_json.to_string_pretty session
        match Fs.writeFile fs1 path contents with
        | .error e => .error (SlotError.ioError e)
        | .ok fs2 => .ok fs2

/-! ### The url crate (`Url::parse`, `query_pairs_mut().append_pair`, `as_str`)

`open_session_creation_page` builds
`"https://x.cartridge.gg/slot/session?" ++ params` and feeds it through
`url::Url::parse`.  For a string of that shape the parse always succeeds and
only the query part is interesting: the WHATWG parser strips ASCII tab and
newlines, cuts the fragment at the first `#`, and re-serializes the query
percent-encoding the query encode set (controls, non-ASCII, space, `"`, `#`,
`<`, `>`, and `'` for special schemes such as https).  The fragment is kept
verbatim here; its own (laxer) encode set is never observed by any claim. -/

/-- The characters the WHATWG query serializer keeps verbatim: printable
ASCII except space, `"` (34), `#` (35), `'` (39), `<` (60) and `>` (62). -/
def queryKeep (c : Char) : Bool :=
  let n := c.toNat
  0x20 < n && n ≤ 0x7E && n != 34 && n != 35 && n != 39 && n != 60 && n != 62

/-- Percent-encode one character for the query encode set. -/
def encodeQueryChar (c : Char) : List Char :=
  if queryKeep c then [c]
  else (utf8Bytes c).foldr (fun b acc => percentEncodeByte b ++ acc) []

/-- The serialized query for a raw query string. -/
def encodeQuerySet (cs : List Char) : List Char :=
  cs.foldr (fun c acc => encodeQueryChar c ++ acc) []

/-- The URL parser removes ASCII tab (9), LF (10) and CR (13) from its input. -/
def stripTabNewlines (s : String) : String :=
  String.mk (s.data.filter (fun c => !(c.toNat == 9 || c.toNat == 10 || c.toNat == 13)))

/-- Split at the first `#`: the part before it and, if present, the fragment. -/
def splitAtHash : List Char → List Char × Option (List Char)
  | [] => ([], none)
  | c :: rest =>
    if c = '#' then ([], some rest)
    else
      let (q, f) := splitAtHash rest
      (c :: q, f)

/-- A parsed URL of the fixed approval-page shape. -/
structure UrlModel where
  base : String
  query : String
  fragment : Option String
deriving DecidableEq

/-- `Url::parse("https://x.cartridge.gg/slot/session?" ++ params)`. -/
def Url.parse_session_url (params : String) : UrlModel :=
  let stripped := (stripTabNewlines params).data
  let (qraw, frag) := splitAtHash stripped
  { base := "https://x.cartridge.gg/slot/session",
    query := String.mk (encodeQuerySet qraw),
    fragment := frag.map String.mk }

/-- `url.query_pairs_mut().append_pair(k, v)`: serialize the pair with the
form-urlencoded byte serializer onto the end of the query. -/
def Url.append_pair (u : UrlModel) (k v : String) : UrlModel :=
  { u with
    query := (if u.query = "" then "" else u.query ++ "&") ++
      form_urlencoded.encode k ++ "=" ++ form_urlencoded.encode v }

/-- `url.as_str()`. -/
def Url.as_str (u : UrlModel) : String :=
  u.base ++ "?" ++ u.query ++
    (match u.fragment with
     | some f => "#" ++ f
     | none => "")

/-! ### The callback endpoint and the correlation channel

`callback_server` routes `POST /callback` to a handler that decodes the body
with axum's `Json<Session>` extractor and runs
`tx.send(session).await.expect("qed; channel closed")` on a capacity-1 mpsc
channel whose receiver the orchestrator owns.  The orchestrator performs one
blocking `rx.recv()` and drops the receiver once it returns.  The state of
that hand-off, as seen by the handler, is either "receiver still waiting" or
"a session was already delivered and the receiver is gone". -/

/-- One HTTP request hitting `POST /callback`. -/
inductive CallbackRequest
  | valid (s : Session)
  | malformed
deriving DecidableEq

/-- The state of the orchestrator's receive. -/
inductive RecvSt
  | waiting
  | done (s : Session)
deriving DecidableEq

/-- What one handler invocation observably did. -/
inductive HandlerResult
  | ok
  | rejected4xx
  | panicked
deriving DecidableEq

/-- Process one callback request.  A malformed body is rejected by the `Json`
extractor with a 4xx response before the handler body runs, touching nothing.
A valid body reaches `tx.send(...)`: while the orchestrator waits, the send
succeeds and fulfils the receive; after the receiver is gone, `send` returns
`Err` and `.expect("qed; channel closed")` panics the handler task. -/
def callback_handler_step (req : CallbackRequest) (st : RecvSt) : RecvSt × HandlerResult :=
  match req, st with
  | .malformed, st => (st, .rejected4xx)
  | .valid s, .waiting => (.done s, .ok)
  | .valid _, .done s0 => (.done s0, .panicked)

/-- Process the endpoint's request sequence in order. -/
def runCallbacks (st : RecvSt) : List CallbackRequest → RecvSt × List HandlerResult
  | [] => (st, [])
  | r :: rs =>
    let (st1, h) := callback_handler_step r st
    let (st2, hs) := runCallbacks st1 rs
    (st2, h :: hs)

/-- The session payload of a valid request. -/
def CallbackRequest.payload : CallbackRequest → Option Session
  | .valid s => some s
  | .malformed => none

/-- The valid session payloads of a request sequence, in delivery order. -/
def validPayloads (reqs : List CallbackRequest) : List Session :=
  reqs.filterMap CallbackRequest.payload

/-- The ambient behaviour of one handshake: what the OS, the browser and the
external approval flow do.  `port` is the ephemeral port `LocalServer` binds
(`server.local_addr()?.port()`; `none` models a bind failure),
`browser_ok` whether `browser::open` succeeds, `requests` the HTTP requests
the callback endpoint receives, and `producer_dropped` whether the sending
side dies without ever sending (e.g. the spawned server task is killed). -/
structure HandshakeEnv where
  port : Option Nat
  browser_ok : Bool
  requests : List CallbackRequest
  producer_dropped : Bool
deriving DecidableEq

/-- `open_session_creation_page` from session.rs: build the query params,
format the approval URL, create the channel and the callback server, read its
bound port, append `callback_uri` and open the browser.  Returns the final
URL string handed to `browser::open` together with the bound port (the
receiver half is modelled by `recv_result` below). -/
def open_session_creation_page (henv : HandshakeEnv) (username rpc_url : String)
    (policies : List Policy) : Except SlotError (String × Nat) :=
  match prepare_query_params username rpc_url policies with
  | .error _ => .error SlotError.encodingError
  | .ok params =>
    match henv.port with
    | none => .error SlotError.endpointBindFailed
    | some port =>
      let url0 := Url.parse_session_url params
      let callback_uri := "http://localhost:" ++ Nat.repr port ++ "/callback"
      let url1 := Url.append_pair url0 "callback_uri" callback_uri
      if henv.browser_ok then .ok (Url.as_str url1, port)
      else .error SlotError.browserLaunchFailed

/-- The outcome of `create`: a returned session, a typed error, or a call that
never returns (`rx.recv().await` suspended forever). -/
inductive CreateResult
  | ok (s : Session)
  | err (e : SlotError)
  | pending
deriving DecidableEq

/-- What `rx.recv().await` yields once the endpoint has processed its
requests: the first successfully sent session, if any. -/
def recv_result (henv : HandshakeEnv) : Option Session :=
  match (runCallbacks RecvSt.waiting henv.requests).1 with
  | .done s => some s
  | .waiting => none

/-- `create` from session.rs: load credentials, open the session creation
page, then block on the channel; a `recv` that yields nothing because the
producer side was dropped is `.context("Channel dropped.")` — the terminal
`channelClosed` error. -/
def create (henv : HandshakeEnv) (auth : Option String) (rpc_url : String)
    (policies : List Policy) : CreateResult :=
  match Credentials.load auth with
  | .error e => .err e
  | .ok credentials =>
    match Credentials.expectAccountId credentials with
    | .error e => .err e
    | .ok username =>
      match open_session_creation_page henv username rpc_url policies with
      | .error e => .err e
      | .ok _ =>
        match recv_result henv with
        | some s => .ok s
        | none =>
          if henv.producer_dropped then .err SlotError.channelClosed
          else .pending

/-! ### Decoding the final URL back (used to state what the approval URL
contains, independently of how it was assembled) -/

/-- Everything after the first occurrence of `t` (`[]` if `t` is absent). -/
def afterChar (t : Char) : List Char → List Char
  | [] => []
  | c :: rest => if c = t then rest else afterChar t rest

/-- Everything before the first occurrence of `t` (all of it if absent). -/
def upToChar (t : Char) : List Char → List Char
  | [] => []
  | c :: rest => if c = t then [] else c :: upToChar t rest

/-- The query part of a URL string: after the first `?`, before the first `#`
that follows it. -/
def takeQueryPart (url : String) : List Char :=
  upToChar '#' (afterChar '?' url.data)

/-- Split on a separator character (`n+1` pieces for `n` separators). -/
def splitOnChar (sep : Char) : List Char → List (List Char)
  | [] => [[]]
  | c :: rest =>
    let r := splitOnChar sep rest
    if c = sep then [] :: r
    else (c :: r.headD []) :: r.tail

/-- The bytes denoted by a form-urlencoded piece: `+` is space, `%XX` is a
byte, anything else contributes its UTF-8 bytes (a malformed `%` stays
literal, as in the `form_urlencoded` parser). -/
def percentDecodeBytes : List Char → List Nat
  | [] => []
  | '%' :: a :: b :: r =>
    match hexVal a, hexVal b with
    | some x, some y => (16 * x + y) :: percentDecodeBytes r
    | _, _ => utf8Bytes '%' ++ percentDecodeBytes (a :: b :: r)
  | c :: rest =>
    if c = '+' then 0x20 :: percentDecodeBytes rest
    else utf8Bytes c ++ percentDecodeBytes rest

/-- A UTF-8 continuation byte. -/
def utf8Cont (b : Nat) : Bool := 0x80 ≤ b && b < 0xC0

/-- Decode one UTF-8 sequence (lossily, invalid input becomes U+FFFD):
the decoded scalar and the remaining bytes. -/
def utf8DecodeOne (b : Nat) (rest : List Nat) : Char × List Nat :=
  if b < 0x80 then (Char.ofNat b, rest)
  else if b < 0xC2 then (Char.ofNat 0xFFFD, rest)
  else if b < 0xE0 then
    match rest with
    | b1 :: r =>
      if utf8Cont b1 then (Char.ofNat ((b - 0xC0) * 64 + (b1 - 0x80)), r)
      else (Char.ofNat 0xFFFD, b1 :: r)
    | [] => (Char.ofNat 0xFFFD, [])
  else if b < 0xF0 then
    match rest with
    | b1 :: b2 :: r =>
      if utf8Cont b1 && utf8Cont b2 then
        (Char.ofNat ((b - 0xE0) * 4096 + (b1 - 0x80) * 64 + (b2 - 0x80)), r)
      else (Char.ofNat 0xFFFD, b1 :: b2 :: r)
    | _ => (Char.ofNat 0xFFFD, [])
  else
    match rest with
    | b1 :: b2 :: b3 :: r =>
      if utf8Cont b1 && utf8Cont b2 && utf8Cont b3 then
        (Char.ofNat
          ((b - 0xF0) * 262144 + (b1 - 0x80) * 4096 + (b2 - 0x80) * 64 + (b3 - 0x80)), r)
      else (Char.ofNat 0xFFFD, b1 :: b2 :: b3 :: r)
    | _ => (Char.ofNat 0xFFFD, [])

/-- Lossy UTF-8 decoding (invalid sequences become U+FFFD, which no claim
exercises — the decoded pieces in the theorems are ASCII); each step consumes
at least the lead byte, so recursion is on the input's length. -/
def utf8Decode : List Nat → List Char
  | [] => []
  | b :: rest =>
    (utf8DecodeOne b rest).1 :: utf8Decode (utf8DecodeOne b rest).2
termination_by bs => bs.length
decreasing_by
  simp only [List.length_cons]
  refine Nat.lt_succ_of_le ?_
  unfold utf8DecodeOne
  repeat' split
  all_goals simp
  all_goals omega

/-- Decode one form-urlencoded piece to a string. -/
def formDecode (cs : List Char) : String :=
  String.mk (utf8Decode (percentDecodeBytes cs))

/-- The key of a `key=value` query pair. -/
def pairKey (p : List Char) : List Char := upToChar '=' p

/-- The value of a `key=value` query pair (empty when there is no `=`). -/
def pairValue (p : List Char) : List Char := afterChar '=' p

/-- The decoded value of the *last* query parameter named `key` in a URL
string, the way `form_urlencoded` parses a query. -/
def queryParamLast (url : String) (key : String) : Option String :=
  let pairs := splitOnChar '&' (takeQueryPart url)
  (pairs.filterMap (fun p =>
      if formDecode (pairKey p) = key then some (formDecode (pairValue p)) else none)).getLast?

/-- `needle` occurs contiguously inside `hay`. -/
def infixOf (needle : List Char) : List Char → Bool
  | [] => needle.isEmpty
  | c :: rest => needle.isPrefixOf (c :: rest) || infixOf needle rest

/-- The callback URI `create` advertises for a given bound port. -/
def callbackUri (port : Nat) : String :=
  "http://localhost:" ++ Nat.repr port ++ "/callback"

/-- A concrete policy for witnesses. -/
def examplePolicy : Policy := { target := 1, method := "transfer" }

/-- A concrete session for witnesses. -/
def exampleSession : Session :=
  { expires_at := "2024-01-01T00:00:00Z",
    policies := [examplePolicy],
    credentials := { private_key := "pk", authorization := ["auth"] } }

/-- A concrete OS environment for witnesses. -/
def exampleEnv : Env := { config_local_dir := ["cfg"] }

/-- A handshake in which the single valid payload arrives once. -/
def exampleHandshakeC6 : HandshakeEnv :=
  ⟨some 8080, true, [CallbackRequest.valid exampleSession], false⟩

/-- A handshake whose producer side dies without sending. -/
def exampleHandshakeC7 : HandshakeEnv := ⟨some 8080, true, [], true⟩

/-- A handshake that receives a malformed body and then the valid payload. -/
def exampleHandshakeC9 : HandshakeEnv :=
  ⟨some 8080, true, [CallbackRequest.malformed, CallbackRequest.valid exampleSession], false⟩

/-- A handshake with no deliveries yet (used for the URL-shape claims). -/
def exampleHandshake : HandshakeEnv := ⟨some 8080, true, [], false⟩

/-!
## Theorems

First the supporting lemmas, then one theorem per claim (with a witness
instantiation wherever the theorem carries hypotheses).
-/

/-! ### The encoder (C3) -/

lemma collectExcept_map_ok {A B : Type} (f : A → B) (l : List A) :
    collectExcept (l.map (fun a => (Except.ok (f a) : Except SerdeError B))) =
      .ok (l.map f) := by
  induction l with
  | nil => rfl
  | cons a t ih => simp [collectExcept, ih]

lemma prepare_query_params_eq (u r : String) (ps : List Policy) :
    prepare_query_params u r ps = .ok (paramsOf u r ps) := by
  unfold prepare_query_params paramsOf
  have h : (ps.map (fun p =>
      match serde_json.to_string p with
      | .error e => .error e
      | .ok s => .ok (urlencoding.encode s))) =
      ps.map (fun p => (Except.ok (encodedPolicy p) : Except SerdeError String)) := by
    simp [serde_json.to_string, encodedPolicy]
  rw [h, collectExcept_map_ok encodedPolicy ps]

/-- Claim C3: for every username, rpc url and policy list, the query-parameter
encoder succeeds and produces exactly
`username=<u>&rpc_url=<r>&policies=[<p1>,<p2>,...]`, where each `<p_i>` is the
compact serde JSON of the i-th policy, percent-encoded, the fragments joined
with `,` inside a literal bracket pair, in input order; it can only fail
through policy serialization (which never errs, so it never fails). -/
theorem prepare_query_params_spec (u r : String) (ps : List Policy) :
    prepare_query_params u r ps =
      .ok ("username=" ++ u ++ "&rpc_url=" ++ r ++ "&policies=[" ++
        joinStrings "," (ps.map encodedPolicy) ++ "]") :=
  prepare_query_params_eq u r ps

/-! ### Identity precondition (C1) -/

/-- Claim C1: when the credential store has no authenticated account, `get`,
`store` and `create` all fail with the typed `identityUnavailable` error — by
constructor disjointness this is neither the `panicked` outcome nor (for
`create`) the `pending` (hung) outcome. -/
theorem create_get_store_identity_unavailable (env : Env) (henv : HandshakeEnv)
    (fs : Fs) (chain : FieldElement) (session : Session) (rpc : String)
    (ps : List Policy) :
    get env none fs chain = .error SlotError.identityUnavailable ∧
    store env none fs chain session = .error SlotError.identityUnavailable ∧
    create henv none rpc ps = .err SlotError.identityUnavailable :=
  ⟨rfl, rfl, rfl⟩

/-! ### The store bug (C2) -/

/-- Claim C2 (code bug): with an authenticated account `alice` and a
filesystem in which the per-account session directory `cfg/slot/alice` does
not yet exist, `store` does *not* complete a round-trip: the source passes the
session *file* path (not its parent) to `fs::create_dir_all`, so the file path
itself is created as a directory (second conjunct) and the subsequent
`fs::write` fails with an is-a-directory error (first conjunct) — `store`
returns an error and no session is retrievable. -/
theorem store_fresh_account_dir_fails :
    store exampleEnv (some "alice") ⟨[(["cfg"], FsEntry.dir)]⟩ 1 exampleSession =
        .error (SlotError.ioError IoError.isADirectory) ∧
    (Fs.mkdirAll ⟨[(["cfg"], FsEntry.dir)]⟩ (get_file_path exampleEnv "alice" 1)).map
        (fun fs1 => Fs.lookup fs1 (get_file_path exampleEnv "alice" 1)) =
      .ok (some FsEntry.dir) :=
  ⟨by decide, by decide⟩

/-! ### Persistence paths (C8) -/

lemma hexDigitLower_charset (k : Nat) (hk : k < 16) :
    (48 ≤ (hexDigitLower k).toNat ∧ (hexDigitLower k).toNat ≤ 57) ∨
      (97 ≤ (hexDigitLower k).toNat ∧ (hexDigitLower k).toNat ≤ 102) := by
  interval_cases k <;> decide

lemma natHexCharsAux_charset (fuel : Nat) :
    ∀ (n : Nat), ∀ c ∈ natHexCharsAux fuel n,
      (48 ≤ c.toNat ∧ c.toNat ≤ 57) ∨ (97 ≤ c.toNat ∧ c.toNat ≤ 102) := by
  induction fuel with
  | zero => intro n c hc; simp [natHexCharsAux] at hc
  | succ f ih =>
    intro n c hc
    simp only [natHexCharsAux] at hc
    split at hc
    · simp only [List.mem_singleton] at hc
      subst hc
      exact hexDigitLower_charset n (by omega)
    · rcases List.mem_append.1 hc with h | h
      · exact ih _ c h
      · simp only [List.mem_singleton] at h
        subst h
        exact hexDigitLower_charset (n % 16) (Nat.mod_lt _ (by omega))

lemma store_writes (env : Env) (u : String) (fs : Fs) (chain : FieldElement)
    (session : Session)
    (hparent : Fs.lookup fs (get_file_path env u chain).dropLast = some FsEntry.dir)
    (hnotdir : Fs.lookup fs (get_file_path env u chain) ≠ some FsEntry.dir) :
    store env (some u) fs chain session =
      .ok ⟨(get_file_path env u chain,
            FsEntry.file (serde_json.to_string_pretty session)) :: fs.entries⟩ := by
  have hcond : ¬(get_file_path env u chain ≠ [] ∧
      Fs.existsPath fs (get_file_path env u chain).dropLast = false) := by
    rintro ⟨-, h2⟩
    rw [Fs.existsPath, hparent] at h2
    simp at h2
  have hwrite : Fs.writeFile fs (get_file_path env u chain)
      (serde_json.to_string_pretty session) =
      .ok ⟨(get_file_path env u chain,
            FsEntry.file (serde_json.to_string_pretty session)) :: fs.entries⟩ := by
    unfold Fs.writeFile
    rcases hl : Fs.lookup fs (get_file_path env u chain) with _ | e
    · rw [hparent]
    · cases e with
      | dir => exact absurd hl hnotdir
      | file c => rw [hparent]
  unfold store
  simp only [Credentials.load, Credentials.expectAccountId, if_neg hcond, hwrite]

lemma get_reads (env : Env) (u : String) (fs : Fs) (chain : FieldElement)
    (contents : String)
    (hc : Fs.lookup fs (get_file_path env u chain) = some (FsEntry.file contents)) :
    get env (some u) fs chain =
      match serde_json.from_str contents with
      | some s => .ok s
      | none => .error SlotError.deserializationError := by
  unfold get Fs.read_to_string
  simp only [Credentials.load, Credentials.expectAccountId, hc]

/-- Claim C8: `store` writes the session, pretty-printed, to the deterministic
path `<config local dir>/<SLOT_DIR>/<account>/<0x-lowercase-hex chain id>-session.json`
(first two conjuncts: the path formula, and that the hex digits are lowercase
`0-9a-f`), the write target holds exactly the pretty JSON (third conjunct, for
a filesystem in which the per-account directory already exists — see C2 for
the fresh-directory bug), and `get` for the same account and chain id reads
that same path, returning whatever is deserialized from its contents (fourth
conjunct). -/
theorem store_get_deterministic_path (env : Env) (u : String) (fs : Fs)
    (chain : FieldElement) (session : Session)
    (hparent : Fs.lookup fs (get_file_path env u chain).dropLast = some FsEntry.dir)
    (hnotdir : Fs.lookup fs (get_file_path env u chain) ≠ some FsEntry.dir) :
    get_file_path env u chain =
      env.config_local_dir ++
        [SLOT_DIR, u, "0x" ++ String.mk (natHexChars chain) ++ "-" ++ SESSION_FILE_BASE_NAME] ∧
    (∀ c ∈ natHexChars chain,
      (48 ≤ c.toNat ∧ c.toNat ≤ 57) ∨ (97 ≤ c.toNat ∧ c.toNat ≤ 102)) ∧
    store env (some u) fs chain session =
      .ok ⟨(get_file_path env u chain,
            FsEntry.file (serde_json.to_string_pretty session)) :: fs.entries⟩ ∧
    (∀ (fs' : Fs) (contents : String),
      Fs.lookup fs' (get_file_path env u chain) = some (FsEntry.file contents) →
      get env (some u) fs' chain =
        match serde_json.from_str contents with
        | some s => .ok s
        | none => .error SlotError.deserializationError) :=
  ⟨rfl, natHexCharsAux_charset (chain + 1) chain,
    store_writes env u fs chain session hparent hnotdir,
    fun fs' contents hc => get_reads env u fs' chain contents hc⟩

/-- Witness for C8 at a concrete account, chain id, session and filesystem. -/
theorem store_get_deterministic_path_witness :
    Fs.lookup ⟨[(["cfg", "slot", "alice"], FsEntry.dir)]⟩
        (get_file_path exampleEnv "alice" 1).dropLast = some FsEntry.dir ∧
    Fs.lookup ⟨[(["cfg", "slot", "alice"], FsEntry.dir)]⟩
        (get_file_path exampleEnv "alice" 1) ≠ some FsEntry.dir ∧
    store exampleEnv (some "alice") ⟨[(["cfg", "slot", "alice"], FsEntry.dir)]⟩ 1
        exampleSession =
      .ok ⟨(get_file_path exampleEnv "alice" 1,
            FsEntry.file (serde_json.to_string_pretty exampleSession)) ::
          [(["cfg", "slot", "alice"], FsEntry.dir)]⟩ :=
  ⟨by decide, by decide,
    (store_get_deterministic_path exampleEnv "alice"
        ⟨[(["cfg", "slot", "alice"], FsEntry.dir)]⟩ 1 exampleSession
        (by decide) (by decide)).2.2.1⟩

/-! ### The correlation channel (C6, C7, C9) -/

lemma runCallbacks_fst_done (s0 : Session) (reqs : List CallbackRequest) :
    (runCallbacks (RecvSt.done s0) reqs).1 = RecvSt.done s0 := by
  induction reqs with
  | nil => rfl
  | cons r rs ih =>
    cases r with
    | malformed => simpa [runCallbacks, callback_handler_step] using ih
    | valid s => simpa [runCallbacks, callback_handler_step] using ih

lemma runCallbacks_fst_waiting (reqs : List CallbackRequest) :
    (runCallbacks RecvSt.waiting reqs).1 =
      match (validPayloads reqs).head? with
      | some s => RecvSt.done s
      | none => RecvSt.waiting := by
  induction reqs with
  | nil => rfl
  | cons r rs ih =>
    cases r with
    | malformed =>
      simpa [runCallbacks, callback_handler_step, validPayloads,
        CallbackRequest.payload] using ih
    | valid s =>
      simp [runCallbacks, callback_handler_step, validPayloads,
        CallbackRequest.payload, runCallbacks_fst_done]

lemma recv_result_eq (henv : HandshakeEnv) :
    recv_result henv = (validPayloads henv.requests).head? := by
  unfold recv_result
  rw [runCallbacks_fst_waiting]
  cases hh : (validPayloads henv.requests).head? <;> simp

lemma open_page_ok (henv : HandshakeEnv) (u r : String) (ps : List Policy) (port : Nat)
    (hport : henv.port = some port) (hb : henv.browser_ok = true) :
    open_session_creation_page henv u r ps =
      .ok (Url.as_str (Url.append_pair (Url.parse_session_url (paramsOf u r ps))
            "callback_uri" (callbackUri port)), port) := by
  unfold open_session_creation_page
  rw [prepare_query_params_eq, hport, hb]
  rfl

lemma create_eq (henv : HandshakeEnv) (u r : String) (ps : List Policy) (port : Nat)
    (hport : henv.port = some port) (hb : henv.browser_ok = true) :
    create henv (some u) r ps =
      match (validPayloads henv.requests).head? with
      | some s => CreateResult.ok s
      | none =>
        if henv.producer_dropped then CreateResult.err SlotError.channelClosed
        else CreateResult.pending := by
  unfold create
  simp only [Credentials.load, Credentials.expectAccountId]
  rw [open_page_ok henv u r ps port hport hb, recv_result_eq]

/-- Claim C6: a handshake in which exactly one valid session payload is
delivered to the callback endpoint (any number of malformed requests aside)
makes `create` return exactly that session, field for field.  (`create` is a
function into `CreateResult`, so it returns at most one value — "returns
exactly once" is the fact that the outcome is `.ok s` rather than `.pending`
or an error.) -/
theorem create_single_delivery (henv : HandshakeEnv) (u r : String)
    (ps : List Policy) (port : Nat) (s : Session)
    (hport : henv.port = some port) (hb : henv.browser_ok = true)
    (honce : validPayloads henv.requests = [s]) :
    create henv (some u) r ps = CreateResult.ok s := by
  rw [create_eq henv u r ps port hport hb, honce]
  rfl

/-- Witness for C6: the example session delivered once. -/
theorem create_single_delivery_witness :
    exampleHandshakeC6.port = some 8080 ∧
    exampleHandshakeC6.browser_ok = true ∧
    validPayloads exampleHandshakeC6.requests = [exampleSession] ∧
    create exampleHandshakeC6 (some "alice") "https://rpc.example.com" [] =
      CreateResult.ok exampleSession :=
  ⟨rfl, rfl, rfl,
    create_single_delivery exampleHandshakeC6 "alice" "https://rpc.example.com" [] 8080
      exampleSession rfl rfl rfl⟩

/-- Claim C7: if the producing side of the channel is dropped before any
session is sent (no valid delivery ever happened), `create`'s blocking wait
fails with the terminal `channelClosed` error — it neither returns a session
nor hangs. -/
theorem channel_closed_on_producer_drop (henv : HandshakeEnv) (u r : String)
    (ps : List Policy) (port : Nat)
    (hport : henv.port = some port) (hb : henv.browser_ok = true)
    (hnone : validPayloads henv.requests = [])
    (hdrop : henv.producer_dropped = true) :
    create henv (some u) r ps = CreateResult.err SlotError.channelClosed := by
  rw [create_eq henv u r ps port hport hb, hnone]
  simp [hdrop]

/-- Witness for C7: a dropped producer with no deliveries. -/
theorem channel_closed_on_producer_drop_witness :
    exampleHandshakeC7.port = some 8080 ∧
    exampleHandshakeC7.browser_ok = true ∧
    validPayloads exampleHandshakeC7.requests = [] ∧
    exampleHandshakeC7.producer_dropped = true ∧
    create exampleHandshakeC7 (some "alice") "https://rpc.example.com" [] =
      CreateResult.err SlotError.channelClosed :=
  ⟨rfl, rfl, rfl, rfl,
    channel_closed_on_producer_drop exampleHandshakeC7 "alice" "https://rpc.example.com" []
      8080 rfl rfl rfl rfl⟩

/-- Claim C9: a malformed callback body is rejected at the HTTP layer with a
4xx response, leaving the channel state — whatever it is — untouched (first
conjunct: nothing is sent and nothing is closed), and a subsequent valid
delivery still completes the handshake with that session (second conjunct). -/
theorem malformed_callback_rejected (henv : HandshakeEnv) (u r : String)
    (ps : List Policy) (port : Nat) (s : Session) (rest : List CallbackRequest)
    (hreqs : henv.requests = CallbackRequest.malformed :: rest)
    (hport : henv.port = some port) (hb : henv.browser_ok = true)
    (hvalid : validPayloads rest = [s]) :
    (∀ st, callback_handler_step CallbackRequest.malformed st =
      (st, HandlerResult.rejected4xx)) ∧
    create henv (some u) r ps = CreateResult.ok s := by
  refine ⟨fun st => rfl, ?_⟩
  rw [create_eq henv u r ps port hport hb, hreqs]
  have h : validPayloads (CallbackRequest.malformed :: rest) = [s] := by
    simpa [validPayloads, CallbackRequest.payload] using hvalid
  rw [h]
  rfl

/-- Witness for C9: a malformed body followed by the valid payload. -/
theorem malformed_callback_rejected_witness :
    exampleHandshakeC9.requests =
      CallbackRequest.malformed :: [CallbackRequest.valid exampleSession] ∧
    exampleHandshakeC9.port = some 8080 ∧
    exampleHandshakeC9.browser_ok = true ∧
    validPayloads [CallbackRequest.valid exampleSession] = [exampleSession] ∧
    create exampleHandshakeC9 (some "alice") "https://rpc.example.com" [] =
      CreateResult.ok exampleSession :=
  ⟨rfl, rfl, rfl, rfl,
    (malformed_callback_rejected exampleHandshakeC9 "alice" "https://rpc.example.com" []
      8080 exampleSession [CallbackRequest.valid exampleSession] rfl rfl rfl rfl).2⟩

/-! ### The approval URL (C4, C5): query-safe characters -/

lemma char_ne_of_toNat_ne {c d : Char} (h : c.toNat ≠ d.toNat) : c ≠ d :=
  fun he => h (by rw [he])

lemma char_toNat_lt (c : Char) : c.toNat < 1114112 := by
  rcases c.valid with h | ⟨-, h2⟩
  · exact Nat.lt_trans h (by norm_num)
  · exact h2

lemma queryKeep_facts {c : Char} (h : queryKeep c = true) :
    0x20 < c.toNat ∧ c.toNat ≤ 0x7E ∧ c.toNat ≠ 34 ∧ c.toNat ≠ 35 ∧ c.toNat ≠ 39 ∧
      c.toNat ≠ 60 ∧ c.toNat ≠ 62 := by
  simp only [queryKeep, Bool.and_eq_true, bne_iff_ne, ne_eq, decide_eq_true_eq] at h
  tauto

lemma queryKeep_of_facts {c : Char} (h1 : 0x20 < c.toNat) (h2 : c.toNat ≤ 0x7E)
    (h3 : c.toNat ≠ 34) (h4 : c.toNat ≠ 35) (h5 : c.toNat ≠ 39) (h6 : c.toNat ≠ 60)
    (h7 : c.toNat ≠ 62) : queryKeep c = true := by
  simp only [queryKeep, Bool.and_eq_true, bne_iff_ne, ne_eq, decide_eq_true_eq]
  tauto

lemma queryKeep_of_unreserved {c : Char} (h : urlUnreserved c = true) :
    queryKeep c = true := by
  simp only [urlUnreserved, Bool.or_eq_true, Bool.and_eq_true, beq_iff_eq,
    decide_eq_true_eq] at h
  apply queryKeep_of_facts <;> omega

lemma hexDigitUpper_charset (k : Nat) (hk : k < 16) :
    (48 ≤ (hexDigitUpper k).toNat ∧ (hexDigitUpper k).toNat ≤ 57) ∨
      (65 ≤ (hexDigitUpper k).toNat ∧ (hexDigitUpper k).toNat ≤ 70) := by
  interval_cases k <;> decide

lemma queryKeep_hexDigitUpper (k : Nat) (hk : k < 16) :
    queryKeep (hexDigitUpper k) = true := by
  rcases hexDigitUpper_charset k hk with ⟨h1, h2⟩ | ⟨h1, h2⟩ <;>
    apply queryKeep_of_facts <;> omega

lemma queryKeep_percentEncodeByte {b : Nat} (hb : b < 256) :
    ∀ c ∈ percentEncodeByte b, queryKeep c = true := by
  intro c hc
  unfold percentEncodeByte at hc
  simp only [List.mem_cons, List.not_mem_nil, or_false] at hc
  rcases hc with rfl | rfl | rfl
  · decide
  · exact queryKeep_hexDigitUpper _ (by omega)
  · exact queryKeep_hexDigitUpper _ (Nat.mod_lt _ (by omega))

lemma utf8Bytes_lt (c : Char) : ∀ b ∈ utf8Bytes c, b < 256 := by
  intro b hb
  have hc := char_toNat_lt c
  simp only [utf8Bytes] at hb
  split at hb
  · simp only [List.mem_singleton] at hb; omega
  · split at hb
    · simp only [List.mem_cons, List.not_mem_nil, or_false] at hb
      have h1 := Nat.mod_lt c.toNat (show 0 < 64 by omega)
      rcases hb with rfl | rfl <;> omega
    · split at hb
      · simp only [List.mem_cons, List.not_mem_nil, or_false] at hb
        have h1 := Nat.mod_lt c.toNat (show 0 < 64 by omega)
        have h2 := Nat.mod_lt (c.toNat / 64) (show 0 < 64 by omega)
        rcases hb with rfl | rfl | rfl <;> omega
      · simp only [List.mem_cons, List.not_mem_nil, or_false] at hb
        have h1 := Nat.mod_lt c.toNat (show 0 < 64 by omega)
        have h2 := Nat.mod_lt (c.toNat / 64) (show 0 < 64 by omega)
        have h3 := Nat.mod_lt (c.toNat / 4096) (show 0 < 64 by omega)
        rcases hb with rfl | rfl | rfl | rfl <;> omega

lemma mem_foldr_append {α β : Type} (f : α → List β) (l : List α) (c : β)
    (hc : c ∈ l.foldr (fun a acc => f a ++ acc) []) : ∃ a ∈ l, c ∈ f a := by
  induction l with
  | nil => simp at hc
  | cons a t ih =>
    simp only [List.foldr_cons, List.mem_append] at hc
    rcases hc with h | h
    · exact ⟨a, List.mem_cons_self a t, h⟩
    · obtain ⟨x, hx, hcx⟩ := ih h
      exact ⟨x, List.mem_cons_of_mem _ hx, hcx⟩

lemma urlencode_query_safe (s : String) :
    ∀ c ∈ (urlencoding.encode s).data, queryKeep c = true := by
  intro c hc
  obtain ⟨a, -, hca⟩ := mem_foldr_append urlencoding.encodeChar s.data c hc
  unfold urlencoding.encodeChar at hca
  split at hca
  · simp only [List.mem_singleton] at hca
    subst hca
    exact queryKeep_of_unreserved (by assumption)
  · obtain ⟨b, hb, hcb⟩ := mem_foldr_append percentEncodeByte (utf8Bytes a) c hca
    exact queryKeep_percentEncodeByte (utf8Bytes_lt a b hb) c hcb

lemma mem_joinStrings (sep : String) : ∀ (l : List String) (c : Char),
    c ∈ (joinStrings sep l).data → c ∈ sep.data ∨ ∃ x ∈ l, c ∈ x.data := by
  intro l
  induction l with
  | nil => intro c hc; simp [joinStrings] at hc
  | cons x t ih =>
    intro c hc
    cases t with
    | nil => exact Or.inr ⟨x, by simp, hc⟩
    | cons y ys =>
      simp only [joinStrings, String.data_append, List.mem_append] at hc
      rcases hc with (h | h) | h
      · exact Or.inr ⟨x, by simp, h⟩
      · exact Or.inl h
      · rcases ih c h with h1 | ⟨z, hz, hcz⟩
        · exact Or.inl h1
        · exact Or.inr ⟨z, List.mem_cons_of_mem _ hz, hcz⟩

lemma paramsOf_query_safe (u r : String) (ps : List Policy)
    (hu : ∀ c ∈ u.data, queryKeep c = true) (hr : ∀ c ∈ r.data, queryKeep c = true) :
    ∀ c ∈ (paramsOf u r ps).data, queryKeep c = true := by
  intro c hc
  unfold paramsOf at hc
  simp only [String.data_append, List.mem_append] at hc
  have hlit1 : ∀ c ∈ "username=".data, queryKeep c = true := by decide
  have hlit2 : ∀ c ∈ "&rpc_url=".data, queryKeep c = true := by decide
  have hlit3 : ∀ c ∈ "&policies=[".data, queryKeep c = true := by decide
  have hlit4 : ∀ c ∈ "]".data, queryKeep c = true := by decide
  rcases hc with (((((hc | hc) | hc) | hc) | hc) | hc) | hc
  · exact hlit1 c hc
  · exact hu c hc
  · exact hlit2 c hc
  · exact hr c hc
  · exact hlit3 c hc
  · rcases mem_joinStrings "," (ps.map encodedPolicy) c hc with h | ⟨x, hx, hcx⟩
    · have hcomma : ∀ c ∈ ("," : String).data, queryKeep c = true := by decide
      exact hcomma c h
    · obtain ⟨p, -, rfl⟩ := List.mem_map.1 hx
      exact urlencode_query_safe _ c hcx
  · exact hlit4 c hc

lemma stripTabNewlines_id (s : String) (h : ∀ c ∈ s.data, queryKeep c = true) :
    stripTabNewlines s = s := by
  unfold stripTabNewlines
  have hf : s.data.filter (fun c => !(c.toNat == 9 || c.toNat == 10 || c.toNat == 13)) =
      s.data := by
    apply List.filter_eq_self.2
    intro a ha
    have hfacts := queryKeep_facts (h a ha)
    simp only [Bool.not_eq_true', Bool.or_eq_false_iff, beq_eq_false_iff_ne, ne_eq]
    omega
  rw [hf]

lemma splitAtHash_none (cs : List Char) (h : ∀ c ∈ cs, queryKeep c = true) :
    splitAtHash cs = (cs, none) := by
  induction cs with
  | nil => rfl
  | cons a t ih =>
    have hfacts := queryKeep_facts (h a (by simp))
    have hne : a ≠ '#' :=
      char_ne_of_toNat_ne (by simpa using hfacts.2.2.2.1)
    simp only [splitAtHash, if_neg hne]
    rw [ih (fun c hc => h c (List.mem_cons_of_mem _ hc))]

lemma encodeQuerySet_id (cs : List Char) (h : ∀ c ∈ cs, queryKeep c = true) :
    encodeQuerySet cs = cs := by
  induction cs with
  | nil => rfl
  | cons a t ih =>
    have ha : encodeQueryChar a = [a] := by
      unfold encodeQueryChar
      rw [if_pos (h a (by simp))]
    simp only [encodeQuerySet, List.foldr_cons] at *
    rw [ha, ih (fun c hc => h c (List.mem_cons_of_mem _ hc))]
    rfl

lemma paramsOf_ne_empty (u r : String) (ps : List Policy) : paramsOf u r ps ≠ "" := by
  intro h
  have hd : (paramsOf u r ps).data = [] := by rw [h]
  unfold paramsOf at hd
  simp [String.data_append] at hd

lemma open_page_shape (henv : HandshakeEnv) (u r : String) (ps : List Policy) (port : Nat)
    (hport : henv.port = some port) (hb : henv.browser_ok = true)
    (hu : ∀ c ∈ u.data, queryKeep c = true) (hr : ∀ c ∈ r.data, queryKeep c = true) :
    open_session_creation_page henv u r ps =
      .ok ("https://x.cartridge.gg/slot/session" ++ "?" ++ paramsOf u r ps ++
            "&callback_uri=" ++ form_urlencoded.encode (callbackUri port), port) := by
  rw [open_page_ok henv u r ps port hport hb]
  have hsafe := paramsOf_query_safe u r ps hu hr
  have heta : String.mk (paramsOf u r ps).data = paramsOf u r ps := rfl
  unfold Url.as_str Url.append_pair Url.parse_session_url
  simp only [stripTabNewlines_id _ hsafe, splitAtHash_none _ hsafe,
    encodeQuerySet_id _ hsafe, heta]
  rw [if_neg (paramsOf_ne_empty u r ps)]
  have hK : form_urlencoded.encode "callback_uri" = "callback_uri" := rfl
  rw [hK]
  have hsplit : ("&callback_uri=" : String) = "&" ++ "callback_uri" ++ "=" := rfl
  rw [hsplit]
  simp only [Option.map_none', String.append_assoc, String.append_empty]

/-- Claim C4 counterexample: at username `alice`, rpc url
`https://rpc.example.com`, no policies and bound port 8080, the approval URL
contains `rpc_url=https://rpc.example.com` *verbatim* and does not contain the
URL-encoded form `rpc_url=https%3A%2F%2Frpc.example.com` — the claim that the
`rpc_url` query value is URL-encoded is false. -/
theorem approval_url_rpc_url_not_encoded :
    (open_session_creation_page exampleHandshake "alice" "https://rpc.example.com" []).toOption.map
        (fun res =>
          (infixOf ("rpc_url=" ++ urlencoding.encode "https://rpc.example.com").data res.1.data,
           infixOf "rpc_url=https://rpc.example.com".data res.1.data)) =
      some (false, true) := by
  decide

/-- Claim C4 (amended): the approval URL has the form
`https://x.cartridge.gg/slot/session?username=<u>&rpc_url=<r>&policies=[...]&callback_uri=<enc>`,
where the `rpc_url` value appears *verbatim* (not URL-encoded; the hypotheses
restrict the username and rpc url to characters the URL parser's query
serializer passes through unchanged) and only `callback_uri` is
form-urlencoded. -/
theorem approval_url_shape (henv : HandshakeEnv) (u r : String) (ps : List Policy)
    (port : Nat)
    (hport : henv.port = some port) (hb : henv.browser_ok = true)
    (hu : ∀ c ∈ u.data, queryKeep c = true) (hr : ∀ c ∈ r.data, queryKeep c = true) :
    open_session_creation_page henv u r ps =
      .ok ("https://x.cartridge.gg/slot/session" ++ "?" ++
            ("username=" ++ u ++ "&rpc_url=" ++ r ++ "&policies=[" ++
              joinStrings "," (ps.map encodedPolicy) ++ "]") ++
            "&callback_uri=" ++ form_urlencoded.encode (callbackUri port), port) :=
  open_page_shape henv u r ps port hport hb hu hr

/-- Witness for the amended C4 at concrete inputs. -/
theorem approval_url_shape_witness :
    exampleHandshake.port = some 8080 ∧
    exampleHandshake.browser_ok = true ∧
    (∀ c ∈ ("alice" : String).data, queryKeep c = true) ∧
    (∀ c ∈ ("https://rpc.example.com" : String).data, queryKeep c = true) ∧
    open_session_creation_page exampleHandshake "alice" "https://rpc.example.com" [] =
      .ok ("https://x.cartridge.gg/slot/session" ++ "?" ++
            ("username=" ++ "alice" ++ "&rpc_url=" ++ "https://rpc.example.com" ++
              "&policies=[" ++ joinStrings "," (([] : List Policy).map encodedPolicy) ++ "]") ++
            "&callback_uri=" ++ form_urlencoded.encode (callbackUri 8080), 8080) :=
  ⟨rfl, rfl, by decide, by decide,
    approval_url_shape exampleHandshake "alice" "https://rpc.example.com" [] 8080
      rfl rfl (by decide) (by decide)⟩

/-! ### The callback_uri parameter (C5): reading the final URL back -/

lemma afterChar_append {t : Char} {a : List Char} (b : List Char) (ha : t ∉ a) :
    afterChar t (a ++ t :: b) = b := by
  induction a with
  | nil => simp [afterChar]
  | cons x xs ih =>
    have hx : x ≠ t := fun h => ha (h ▸ List.mem_cons_self x xs)
    simp only [List.cons_append, afterChar, if_neg hx]
    exact ih (fun h => ha (List.mem_cons_of_mem _ h))

lemma upToChar_no {t : Char} {a : List Char} (ha : t ∉ a) : upToChar t a = a := by
  induction a with
  | nil => rfl
  | cons x xs ih =>
    have hx : x ≠ t := fun h => ha (h ▸ List.mem_cons_self x xs)
    simp only [upToChar, if_neg hx]
    rw [ih (fun h => ha (List.mem_cons_of_mem _ h))]

lemma upToChar_append {t : Char} {a : List Char} (b : List Char) (ha : t ∉ a) :
    upToChar t (a ++ t :: b) = a := by
  induction a with
  | nil => simp [upToChar]
  | cons x xs ih =>
    have hx : x ≠ t := fun h => ha (h ▸ List.mem_cons_self x xs)
    simp only [List.cons_append, upToChar, if_neg hx]
    exact congrArg (fun l => x :: l) (ih (fun h => ha (List.mem_cons_of_mem _ h)))

lemma splitOnChar_ne_nil (sep : Char) (cs : List Char) : splitOnChar sep cs ≠ [] := by
  cases cs with
  | nil => simp [splitOnChar]
  | cons c rest =>
    simp only [splitOnChar]
    split <;> simp

lemma splitOnChar_no_sep (sep : Char) : ∀ (cs : List Char), sep ∉ cs →
    splitOnChar sep cs = [cs] := by
  intro cs
  induction cs with
  | nil => intro h; rfl
  | cons c rest ih =>
    intro h
    have hc : ¬(c = sep) := fun he => h (he ▸ List.mem_cons_self c rest)
    simp only [splitOnChar, if_neg hc, ih (fun hm => h (List.mem_cons_of_mem _ hm))]
    rfl

lemma splitOnChar_sep_append (sep : Char) : ∀ (a b : List Char),
    splitOnChar sep (a ++ sep :: b) = splitOnChar sep a ++ splitOnChar sep b := by
  intro a b
  induction a with
  | nil => simp [splitOnChar]
  | cons x xs ih =>
    rcases hsp : splitOnChar sep xs with _ | ⟨h, t⟩
    · exact absurd hsp (splitOnChar_ne_nil sep xs)
    · have hstep : splitOnChar sep ((x :: xs) ++ sep :: b) =
          (if x = sep then [] :: splitOnChar sep (xs ++ sep :: b)
           else (x :: (splitOnChar sep (xs ++ sep :: b)).headD []) ::
             (splitOnChar sep (xs ++ sep :: b)).tail) := rfl
      have hstep2 : splitOnChar sep (x :: xs) =
          (if x = sep then [] :: splitOnChar sep xs
           else (x :: (splitOnChar sep xs).headD []) :: (splitOnChar sep xs).tail) := rfl
      rw [hstep, hstep2, ih, hsp]
      by_cases hx : x = sep
      · rw [if_pos hx, if_pos hx]
        simp
      · rw [if_neg hx, if_neg hx]
        simp

/-! Form-urlencoded decoding facts -/

lemma formUrlKeep_ranges {c : Char} (h : formUrlKeep c = true) :
    (48 ≤ c.toNat ∧ c.toNat ≤ 57) ∨ (65 ≤ c.toNat ∧ c.toNat ≤ 90) ∨
      (97 ≤ c.toNat ∧ c.toNat ≤ 122) ∨ c.toNat = 42 ∨ c.toNat = 45 ∨ c.toNat = 46 ∨
      c.toNat = 95 := by
  simp only [formUrlKeep, Bool.or_eq_true, Bool.and_eq_true, beq_iff_eq,
    decide_eq_true_eq] at h
  tauto

lemma percentEncodeByte_charset {b : Nat} (hb : b < 256) :
    ∀ c ∈ percentEncodeByte b, c.toNat = 37 ∨ (48 ≤ c.toNat ∧ c.toNat ≤ 57) ∨
      (65 ≤ c.toNat ∧ c.toNat ≤ 70) := by
  intro c hc
  unfold percentEncodeByte at hc
  simp only [List.mem_cons, List.not_mem_nil, or_false] at hc
  rcases hc with rfl | rfl | rfl
  · left; decide
  · rcases hexDigitUpper_charset (b / 16) (by omega) with h | h
    · exact Or.inr (Or.inl h)
    · exact Or.inr (Or.inr h)
  · rcases hexDigitUpper_charset (b % 16) (Nat.mod_lt _ (by omega)) with h | h
    · exact Or.inr (Or.inl h)
    · exact Or.inr (Or.inr h)

lemma formEncode_no_specials (s : String) :
    ∀ c ∈ (form_urlencoded.encode s).data,
      c.toNat ≠ 35 ∧ c.toNat ≠ 38 ∧ c.toNat ≠ 61 := by
  intro c hc
  obtain ⟨a, -, hca⟩ := mem_foldr_append form_urlencoded.encodeChar s.data c hc
  unfold form_urlencoded.encodeChar at hca
  split at hca
  · simp only [List.mem_singleton] at hca
    subst hca
    refine ⟨by decide, by decide, by decide⟩
  · split at hca
    · simp only [List.mem_singleton] at hca
      subst hca
      have h := formUrlKeep_ranges (by assumption)
      omega
    · obtain ⟨b, hb, hcb⟩ := mem_foldr_append percentEncodeByte (utf8Bytes a) c hca
      have h := percentEncodeByte_charset (utf8Bytes_lt a b hb) c hcb
      omega

lemma encodeQuerySet_charset (cs : List Char) :
    ∀ c ∈ encodeQuerySet cs, c.toNat ≠ 35 := by
  intro c hc
  obtain ⟨a, -, hca⟩ := mem_foldr_append encodeQueryChar cs c hc
  unfold encodeQueryChar at hca
  split at hca
  · simp only [List.mem_singleton] at hca
    subst hca
    exact (queryKeep_facts (by assumption)).2.2.2.1
  · obtain ⟨b, hb, hcb⟩ := mem_foldr_append percentEncodeByte (utf8Bytes a) c hca
    have h := percentEncodeByte_charset (utf8Bytes_lt a b hb) c hcb
    omega

lemma utf8Bytes_ascii {c : Char} (h : c.toNat < 0x80) : utf8Bytes c = [c.toNat] := by
  simp [utf8Bytes, h]

lemma hexVal_hexDigitUpper (k : Nat) (hk : k < 16) : hexVal (hexDigitUpper k) = some k := by
  interval_cases k <;> decide

lemma percentDecodeBytes_keep {c : Char} (hne1 : c ≠ '%') (hne2 : c ≠ '+')
    (rest : List Char) :
    percentDecodeBytes (c :: rest) = utf8Bytes c ++ percentDecodeBytes rest := by
  rw [percentDecodeBytes.eq_3 c rest (fun a b r hc _ => hne1 hc), if_neg hne2]

lemma percentDecodeBytes_plus (rest : List Char) :
    percentDecodeBytes ('+' :: rest) = 0x20 :: percentDecodeBytes rest := by
  rw [percentDecodeBytes.eq_3 '+' rest (fun a b r hc _ => absurd hc (by decide)),
    if_pos rfl]

lemma percentDecodeBytes_percent {b : Nat} (hb : b < 256) (rest : List Char) :
    percentDecodeBytes (percentEncodeByte b ++ rest) = b :: percentDecodeBytes rest := by
  have h1 := hexVal_hexDigitUpper (b / 16) (by omega)
  have h2 := hexVal_hexDigitUpper (b % 16) (Nat.mod_lt _ (by omega))
  show percentDecodeBytes
      ('%' :: hexDigitUpper (b / 16) :: hexDigitUpper (b % 16) :: rest) = _
  rw [percentDecodeBytes.eq_2, h1, h2]
  show (16 * (b / 16) + b % 16) :: percentDecodeBytes rest = _
  rw [Nat.div_add_mod]

lemma utf8Decode_ascii_cons {b : Nat} (hb : b < 0x80) (rest : List Nat) :
    utf8Decode (b :: rest) = Char.ofNat b :: utf8Decode rest := by
  have h1 : utf8DecodeOne b rest = (Char.ofNat b, rest) := by
    unfold utf8DecodeOne
    rw [if_pos hb]
  rw [utf8Decode.eq_2, h1]

lemma utf8Decode_utf8Bytes : ∀ (cs : List Char), (∀ c ∈ cs, c.toNat < 0x80) →
    utf8Decode (cs.foldr (fun c acc => utf8Bytes c ++ acc) []) = cs := by
  intro cs
  induction cs with
  | nil => intro h; rw [List.foldr_nil, utf8Decode.eq_1]
  | cons c rest ih =>
    intro h
    have hc : c.toNat < 0x80 := h c (by simp)
    simp only [List.foldr_cons, utf8Bytes_ascii hc, List.cons_append, List.nil_append]
    rw [utf8Decode_ascii_cons hc, Char.ofNat_toNat,
      ih (fun x hx => h x (List.mem_cons_of_mem _ hx))]

lemma percentDecodeBytes_plain : ∀ (cs : List Char), (∀ c ∈ cs, c ≠ '%' ∧ c ≠ '+') →
    percentDecodeBytes cs = cs.foldr (fun c acc => utf8Bytes c ++ acc) [] := by
  intro cs
  induction cs with
  | nil => intro h; rfl
  | cons c rest ih =>
    intro h
    have hc := h c (by simp)
    rw [percentDecodeBytes_keep hc.1 hc.2,
      ih (fun x hx => h x (List.mem_cons_of_mem _ hx))]
    simp

lemma formDecode_plain (cs : List Char)
    (h : ∀ c ∈ cs, c.toNat < 0x80 ∧ c ≠ '%' ∧ c ≠ '+') :
    formDecode cs = String.mk cs := by
  unfold formDecode
  rw [percentDecodeBytes_plain cs (fun c hc => (h c hc).2),
    utf8Decode_utf8Bytes cs (fun c hc => (h c hc).1)]

lemma formUrlKeep_facts {c : Char} (h : formUrlKeep c = true) :
    c.toNat < 0x80 ∧ c.toNat ≠ 37 ∧ c.toNat ≠ 43 := by
  have hr := formUrlKeep_ranges h
  omega

lemma form_roundtrip_ascii : ∀ (cs : List Char), (∀ c ∈ cs, c.toNat < 0x80) →
    utf8Decode (percentDecodeBytes
      (cs.foldr (fun c acc => form_urlencoded.encodeChar c ++ acc) [])) = cs := by
  intro cs
  induction cs with
  | nil => intro h; rw [List.foldr_nil, percentDecodeBytes.eq_1, utf8Decode.eq_1]
  | cons c rest ih =>
    intro h
    have hc : c.toNat < 0x80 := h c (by simp)
    have hrest := ih (fun x hx => h x (List.mem_cons_of_mem _ hx))
    rw [List.foldr_cons]
    by_cases hsp : c = ' '
    · subst hsp
      have he : form_urlencoded.encodeChar ' ' = ['+'] := rfl
      rw [he, List.singleton_append, percentDecodeBytes_plus,
        utf8Decode_ascii_cons (by omega), hrest]
    · by_cases hkeep : formUrlKeep c = true
      · have he : form_urlencoded.encodeChar c = [c] := by
          unfold form_urlencoded.encodeChar
          rw [if_neg hsp, if_pos hkeep]
        have hf := formUrlKeep_facts hkeep
        have hne1 : c ≠ '%' := char_ne_of_toNat_ne (by simpa using hf.2.1)
        have hne2 : c ≠ '+' := char_ne_of_toNat_ne (by simpa using hf.2.2)
        rw [he, List.singleton_append, percentDecodeBytes_keep hne1 hne2,
          utf8Bytes_ascii hc, List.singleton_append, utf8Decode_ascii_cons hc,
          Char.ofNat_toNat, hrest]
      · have he : form_urlencoded.encodeChar c = percentEncodeByte c.toNat ++ [] := by
          unfold form_urlencoded.encodeChar
          rw [if_neg hsp, if_neg hkeep, utf8Bytes_ascii hc]
          rfl
        rw [he, List.append_nil, percentDecodeBytes_percent (by omega),
          utf8Decode_ascii_cons hc, Char.ofNat_toNat, hrest]

lemma formDecode_encode_ascii (s : String) (h : ∀ c ∈ s.data, c.toNat < 0x80) :
    formDecode (form_urlencoded.encode s).data = s := by
  have hd : (form_urlencoded.encode s).data =
      s.data.foldr (fun c acc => form_urlencoded.encodeChar c ++ acc) [] := rfl
  show String.mk (utf8Decode (percentDecodeBytes (form_urlencoded.encode s).data)) = s
  rw [hd, form_roundtrip_ascii s.data h]

/-! ASCII digits of `Nat.repr` -/

lemma digitChar_ascii (n : Nat) : (Nat.digitChar n).toNat < 0x80 := by
  rcases Nat.lt_or_ge n 16 with h | h
  · interval_cases n <;> decide
  · have hne : ∀ k : Nat, k < 16 → n ≠ k := fun k hk he => by omega
    unfold Nat.digitChar
    rw [if_neg (hne 0 (by omega)), if_neg (hne 1 (by omega)), if_neg (hne 2 (by omega)),
      if_neg (hne 3 (by omega)), if_neg (hne 4 (by omega)), if_neg (hne 5 (by omega)),
      if_neg (hne 6 (by omega)), if_neg (hne 7 (by omega)), if_neg (hne 8 (by omega)),
      if_neg (hne 9 (by omega)), if_neg (hne 10 (by omega)), if_neg (hne 11 (by omega)),
      if_neg (hne 12 (by omega)), if_neg (hne 13 (by omega)), if_neg (hne 14 (by omega)),
      if_neg (hne 15 (by omega))]
    decide

lemma toDigitsCore_ascii (b : Nat) :
    ∀ (fuel n : Nat) (ds : List Char), (∀ c ∈ ds, c.toNat < 0x80) →
      ∀ c ∈ Nat.toDigitsCore b fuel n ds, c.toNat < 0x80 := by
  intro fuel
  induction fuel with
  | zero =>
    intro n ds hds c hc
    simp only [Nat.toDigitsCore] at hc
    exact hds c hc
  | succ f ih =>
    intro n ds hds c hc
    simp only [Nat.toDigitsCore] at hc
    split at hc
    · rcases List.mem_cons.1 hc with rfl | hmem
      · exact digitChar_ascii _
      · exact hds c hmem
    · refine ih (n / b) (Nat.digitChar (n % b) :: ds) ?_ c hc
      intro x hx
      rcases List.mem_cons.1 hx with rfl | hmem
      · exact digitChar_ascii _
      · exact hds x hmem

lemma repr_ascii (n : Nat) : ∀ c ∈ (Nat.repr n).data, c.toNat < 0x80 := by
  intro c hc
  have hd : (Nat.repr n).data = Nat.toDigitsCore 10 (n + 1) n [] := rfl
  rw [hd] at hc
  exact toDigitsCore_ascii 10 (n + 1) n [] (by simp) c hc

lemma callbackUri_ascii (port : Nat) : ∀ c ∈ (callbackUri port).data, c.toNat < 0x80 := by
  intro c hc
  unfold callbackUri at hc
  simp only [String.data_append, List.mem_append] at hc
  have h1 : ∀ c ∈ ("http://localhost:" : String).data, c.toNat < 0x80 := by decide
  have h2 : ∀ c ∈ ("/callback" : String).data, c.toNat < 0x80 := by decide
  rcases hc with (hc | hc) | hc
  · exact h1 c hc
  · exact repr_ascii port c hc
  · exact h2 c hc

/-! The extraction argument -/

lemma queryParamLast_of_shape (base pre key v fragStr : String)
    (hbase : ('?' : Char) ∉ base.data)
    (hpre : ∀ c ∈ pre.data, c ≠ '#')
    (hkeysafe : ∀ c ∈ key.data,
      c ≠ '#' ∧ c ≠ '&' ∧ c ≠ '=' ∧ c.toNat < 0x80 ∧ c ≠ '%' ∧ c ≠ '+')
    (hv : ∀ c ∈ v.data, c ≠ '#' ∧ c ≠ '&' ∧ c ≠ '=')
    (hfrag : fragStr = "" ∨ ∃ f, fragStr.data = '#' :: f)
    (hpresuffix : pre = "" ∨ ∃ q : List Char, pre.data = q ++ ['&']) :
    queryParamLast (base ++ "?" ++ (pre ++ key ++ "=" ++ v) ++ fragStr) key =
      some (formDecode v.data) := by
  have hkey : formDecode key.data = key := by
    rw [formDecode_plain key.data (fun c hc =>
      ⟨(hkeysafe c hc).2.2.2.1, (hkeysafe c hc).2.2.2.2.1, (hkeysafe c hc).2.2.2.2.2⟩)]
  have hkeyeq : pairKey (key.data ++ '=' :: v.data) = key.data := by
    unfold pairKey
    exact upToChar_append _ (fun hm => (hkeysafe '=' hm).2.2.1 rfl)
  have hvaleq : pairValue (key.data ++ '=' :: v.data) = v.data := by
    unfold pairValue
    exact afterChar_append _ (fun hm => (hkeysafe '=' hm).2.2.1 rfl)
  have hoursnosep : ('&' : Char) ∉ key.data ++ '=' :: v.data := by
    intro hmem
    rcases List.mem_append.1 hmem with h | h
    · exact (hkeysafe '&' h).2.1 rfl
    · rcases List.mem_cons.1 h with he | h2
      · exact absurd he (by decide)
      · exact (hv '&' h2).2.1 rfl
  have hfilterours :
      ((splitOnChar '&' (key.data ++ '=' :: v.data)).filterMap (fun p =>
        if formDecode (pairKey p) = key then some (formDecode (pairValue p))
        else none)) = [formDecode v.data] := by
    rw [splitOnChar_no_sep '&' _ hoursnosep]
    simp [List.filterMap_cons, hkeyeq, hvaleq, hkey]
  have hnohash : ('#' : Char) ∉ pre.data ++ (key.data ++ '=' :: v.data) := by
    intro hmem
    rcases List.mem_append.1 hmem with h | h
    · exact hpre '#' h rfl
    · rcases List.mem_append.1 h with h1 | h1
      · exact (hkeysafe '#' h1).1 rfl
      · rcases List.mem_cons.1 h1 with he | h2
        · exact absurd he (by decide)
        · exact (hv '#' h2).1 rfl
  have hdata : (base ++ "?" ++ (pre ++ key ++ "=" ++ v) ++ fragStr).data =
      base.data ++ '?' :: ((pre.data ++ (key.data ++ '=' :: v.data)) ++ fragStr.data) := by
    simp [String.data_append, List.append_assoc]
  have hquery :
      takeQueryPart (base ++ "?" ++ (pre ++ key ++ "=" ++ v) ++ fragStr) =
      pre.data ++ (key.data ++ '=' :: v.data) := by
    unfold takeQueryPart
    rw [hdata, afterChar_append _ hbase]
    rcases hfrag with rfl | ⟨f, hf⟩
    · rw [show ("" : String).data = [] from rfl, List.append_nil]
      exact upToChar_no hnohash
    · rw [hf]
      exact upToChar_append _ hnohash
  unfold queryParamLast
  rw [hquery]
  rcases hpresuffix with rfl | ⟨q, hq⟩
  · have hpredata : ("" : String).data = [] := rfl
    simp only [hpredata, List.nil_append, hfilterours]
    rfl
  · have hassoc : (q ++ ['&']) ++ (key.data ++ '=' :: v.data) =
        q ++ '&' :: (key.data ++ '=' :: v.data) := by
      simp [List.append_assoc]
    simp only [hq, hassoc, splitOnChar_sep_append, List.filterMap_append, hfilterours,
      List.getLast?_concat]

/-- Claim C5: for every handshake whose listener binds (`port`) and whose
browser opens, the final approval URL carries a query parameter
`callback_uri` whose decoded value is exactly `http://localhost:<port>/callback`,
with `<port>` the very port the fresh callback listener bound (also the port
`open_session_creation_page` returns).  `queryParamLast` reads the parameter
back out of the URL the way a form-urlencoded query is parsed. -/
theorem callback_uri_exact (henv : HandshakeEnv) (u r : String) (ps : List Policy)
    (port : Nat) (hport : henv.port = some port) (hb : henv.browser_ok = true) :
    (open_session_creation_page henv u r ps).map
        (fun res => (queryParamLast res.1 "callback_uri", res.2)) =
      .ok (some (callbackUri port), port) := by
  rw [open_page_ok henv u r ps port hport hb]
  have hvdecode : formDecode (form_urlencoded.encode (callbackUri port)).data =
      callbackUri port := formDecode_encode_ascii _ (callbackUri_ascii port)
  have hkeysafe : ∀ c ∈ ("callback_uri" : String).data,
      c ≠ '#' ∧ c ≠ '&' ∧ c ≠ '=' ∧ c.toNat < 0x80 ∧ c ≠ '%' ∧ c ≠ '+' := by decide
  have hbase : ('?' : Char) ∉ ("https://x.cartridge.gg/slot/session" : String).data := by
    decide
  have hv : ∀ c ∈ (form_urlencoded.encode (callbackUri port)).data,
      c ≠ '#' ∧ c ≠ '&' ∧ c ≠ '=' := by
    intro c hc
    have h := formEncode_no_specials (callbackUri port) c hc
    exact ⟨char_ne_of_toNat_ne (by simpa using h.1),
      char_ne_of_toNat_ne (by simpa using h.2.1),
      char_ne_of_toNat_ne (by simpa using h.2.2)⟩
  have hempty_pre : ∀ c ∈ ("" : String).data, c ≠ '#' := by decide
  rcases hsp : splitAtHash (stripTabNewlines (paramsOf u r ps)).data with ⟨qraw, fragq⟩
  have hq0chars : ∀ c ∈ (String.mk (encodeQuerySet qraw) ++ "&").data, c ≠ '#' := by
    intro c hc
    rw [String.data_append] at hc
    rcases List.mem_append.1 hc with h | h
    · exact char_ne_of_toNat_ne (by simpa using encodeQuerySet_charset qraw c h)
    · have he : c = '&' := by simpa using h
      subst he
      decide
  have hsuffix : ∃ q : List Char,
      (String.mk (encodeQuerySet qraw) ++ "&").data = q ++ ['&'] := by
    refine ⟨encodeQuerySet qraw, ?_⟩
    rw [String.data_append]
  have hurl : Url.parse_session_url (paramsOf u r ps) =
      { base := "https://x.cartridge.gg/slot/session",
        query := String.mk (encodeQuerySet qraw),
        fragment := fragq.map String.mk } := by
    simp only [Url.parse_session_url]
    rw [hsp]
  simp only [Except.map]
  rw [hurl]
  simp only [Url.append_pair, Url.as_str]
  rw [show form_urlencoded.encode "callback_uri" = "callback_uri" from rfl]
  rcases fragq with _ | f
  · simp only [Option.map_none']
    by_cases hempty : String.mk (encodeQuerySet qraw) = ""
    · rw [if_pos hempty,
        queryParamLast_of_shape "https://x.cartridge.gg/slot/session" ""
          "callback_uri" (form_urlencoded.encode (callbackUri port)) ""
          hbase hempty_pre hkeysafe hv (Or.inl rfl) (Or.inl rfl),
        hvdecode]
    · rw [if_neg hempty,
        queryParamLast_of_shape "https://x.cartridge.gg/slot/session"
          (String.mk (encodeQuerySet qraw) ++ "&")
          "callback_uri" (form_urlencoded.encode (callbackUri port)) ""
          hbase hq0chars hkeysafe hv (Or.inl rfl) (Or.inr hsuffix),
        hvdecode]
  · simp only [Option.map_some']
    by_cases hempty : String.mk (encodeQuerySet qraw) = ""
    · rw [if_pos hempty,
        queryParamLast_of_shape "https://x.cartridge.gg/slot/session" ""
          "callback_uri" (form_urlencoded.encode (callbackUri port))
          ("#" ++ String.mk f)
          hbase hempty_pre hkeysafe hv (Or.inr ⟨f, rfl⟩) (Or.inl rfl),
        hvdecode]
    · rw [if_neg hempty,
        queryParamLast_of_shape "https://x.cartridge.gg/slot/session"
          (String.mk (encodeQuerySet qraw) ++ "&")
          "callback_uri" (form_urlencoded.encode (callbackUri port))
          ("#" ++ String.mk f)
          hbase hq0chars hkeysafe hv (Or.inr ⟨f, rfl⟩) (Or.inr hsuffix),
        hvdecode]

/-- Witness for C5: a concrete handshake whose listener binds port 8080. -/
theorem callback_uri_exact_witness :
    exampleHandshake.port = some 8080 ∧
    exampleHandshake.browser_ok = true ∧
    (open_session_creation_page exampleHandshake "alice" "https://rpc.example.com" []).map
        (fun res => (queryParamLast res.1 "callback_uri", res.2)) =
      .ok (some (callbackUri 8080), 8080) :=
  ⟨rfl, rfl,
    callback_uri_exact exampleHandshake "alice" "https://rpc.example.com" [] 8080 rfl rfl⟩

/-! ### The callback handler on duplicate deliveries (C10) -/

/-- Claim C10: a valid callback arriving after the receiver is gone (the
duplicate-delivery case: `create` already returned `s1`) makes the handler's
`tx.send(..).expect("qed; channel closed")` panic the handler task —
`HandlerResult` has no conflict-response outcome at all, the handler either
succeeds, rejects a malformed body, or panics. -/
theorem duplicate_callback_panics (s1 s2 : Session) :
    callback_handler_step (CallbackRequest.valid s2) (RecvSt.done s1) =
      (RecvSt.done s1, HandlerResult.panicked) ∧
    runCallbacks RecvSt.waiting [CallbackRequest.valid s1, CallbackRequest.valid s2] =
      (RecvSt.done s1, [HandlerResult.ok, HandlerResult.panicked]) :=
  ⟨rfl, rfl⟩

end Slot
